import Mathlib

/-!
Verification development for the `rust-timecode-parser` repository: a shallow
embedding in Lean 4 of the LTC (SMPTE linear timecode) decoder's data model
and operations, together with theorems about them.  Machine integers (`u8`,
`u16`, `u64`) are embedded as `Nat` with explicit `% 2 ^ w` where overflow
matters; `i128` arithmetic is embedded as `Int` (with `Int.tdiv` for Rust's
truncating division); fallible operations return `Option`; stateful methods
become functions from the owning structure to an updated copy.

The repository contains two generations of the crate: the one rooted at
`src/` (the field codec, the frame assembler without a sample counter, and
the expected-event-window bit decoder), embedded in namespace `V1`, and the
one rooted at `src/src/` (the frame assembler with
`frame_data_sample_count`, `TimecodeFrame::add_frame`, `FramesPerSecond`),
embedded in namespace `V2`.
-/

namespace V1

/-- Model of `intbits`' `x.bits(lo..hi)` on a `u64` register: the value of
the bit range `[lo, hi)` of `data` (`src/ltc_frame/ltc_frame_data.rs`,
`LtcFrameData::get_bits`). -/
def get_bits (data lo hi : Nat) : Nat := data / 2 ^ lo % 2 ^ (hi - lo)

/-- Model of `intbits`' `x.set_bits(lo..hi, v)` on a `u64` register
(`src/ltc_frame/ltc_frame_data.rs`, `LtcFrameData::set_bits`): the bits of
range `[lo, hi)` are replaced by `v`.  Following the spec's description of
the field codec ("out-of-range digit values ... are accepted as-is (silently
truncated by the field width)"), an oversized `v` is truncated to the width
of the range. -/
def set_bits (data lo hi v : Nat) : Nat :=
  data % 2 ^ lo + 2 ^ hi * (data / 2 ^ hi) + 2 ^ lo * (v % 2 ^ (hi - lo))

/-- Model of `LtcFrameData::split_to_tens_and_units`: `(tens, units)` with
`units = val % 10`, `tens = (val - units) / 10`. -/
def split_to_tens_and_units (val : Nat) : Nat × Nat :=
  let units := val % 10
  let tens := (val - units) / 10
  (tens, units)

/-- Bit range for frame units: `0..4`. -/
def BIT_RANGE_FRAME_UNITS : Nat × Nat := (0, 4)

/-- Bit range for frame-units user bits: `4..8`. -/
def BIT_RANGE_FRAME_UNITS_USER_BITS : Nat × Nat := (4, 8)

/-- Bit range for frame tens: `8..10`. -/
def BIT_RANGE_FRAME_TENS : Nat × Nat := (8, 10)

/-- Bit range for frame-tens user bits: `12..16`. -/
def BIT_RANGE_FRAME_TENS_USER_BITS : Nat × Nat := (12, 16)

/-- Bit range for second units: `16..20`. -/
def BIT_RANGE_SECOND_UNITS : Nat × Nat := (16, 20)

/-- Bit range for second-units user bits: `20..24`. -/
def BIT_RANGE_SECOND_UNITS_USER_BITS : Nat × Nat := (20, 24)

/-- Bit range for second tens: `24..27`. -/
def BIT_RANGE_SECOND_TENS : Nat × Nat := (24, 27)

/-- Bit range for second-tens user bits: `28..32`. -/
def BIT_RANGE_SECOND_TENS_USER_BITS : Nat × Nat := (28, 32)

/-- Bit range for minute units: `32..36`. -/
def BIT_RANGE_MINUTE_UNITS : Nat × Nat := (32, 36)

/-- Bit range for minute-units user bits: `36..40`. -/
def BIT_RANGE_MINUTE_UNITS_USER_BITS : Nat × Nat := (36, 40)

/-- Bit range for minute tens: `40..43`. -/
def BIT_RANGE_MINUTE_TENS : Nat × Nat := (40, 43)

/-- Bit range for minute-tens user bits: `44..48`. -/
def BIT_RANGE_MINUTE_TENS_USER_BITS : Nat × Nat := (44, 48)

/-- Bit range for hour units: `48..52`. -/
def BIT_RANGE_HOUR_UNITS : Nat × Nat := (48, 52)

/-- Bit range for hour-units user bits: `52..56`. -/
def BIT_RANGE_HOUR_UNITS_USER_BITS : Nat × Nat := (52, 56)

/-- Bit range for hour tens: `56..58`. -/
def BIT_RANGE_HOUR_TENS : Nat × Nat := (56, 58)

/-- Bit range for hour-tens user bits: `60..64`. -/
def BIT_RANGE_HOUR_TENS_USER_BITS : Nat × Nat := (60, 64)

/-- Helper applying `set_bits` at a named range. -/
def set_range (data : Nat) (r : Nat × Nat) (v : Nat) : Nat :=
  set_bits data r.1 r.2 v

/-- Helper applying `get_bits` at a named range. -/
def get_range (data : Nat) (r : Nat × Nat) : Nat :=
  get_bits data r.1 r.2

/-- Model of `LtcFrameData::set_frames` on the `u64` payload register. -/
def set_frames (data frames : Nat) : Nat :=
  let p := split_to_tens_and_units frames
  set_range (set_range data BIT_RANGE_FRAME_TENS p.1) BIT_RANGE_FRAME_UNITS p.2

/-- Model of `LtcFrameData::set_seconds`. -/
def set_seconds (data seconds : Nat) : Nat :=
  let p := split_to_tens_and_units seconds
  set_range (set_range data BIT_RANGE_SECOND_TENS p.1) BIT_RANGE_SECOND_UNITS p.2

/-- Model of `LtcFrameData::set_minutes`. -/
def set_minutes (data minutes : Nat) : Nat :=
  let p := split_to_tens_and_units minutes
  set_range (set_range data BIT_RANGE_MINUTE_TENS p.1) BIT_RANGE_MINUTE_UNITS p.2

/-- Model of `LtcFrameData::set_hours`. -/
def set_hours (data hours : Nat) : Nat :=
  let p := split_to_tens_and_units hours
  set_range (set_range data BIT_RANGE_HOUR_TENS p.1) BIT_RANGE_HOUR_UNITS p.2

/-- Model of `LtcFrameData::new_with_time`: starts from a zero register and
applies `set_hours`, `set_minutes`, `set_seconds`, `set_frames` in the
source's order. -/
def new_with_time (hours minutes seconds frames : Nat) : Nat :=
  set_frames (set_seconds (set_minutes (set_hours 0 hours) minutes) seconds) frames

/-- Model of `LtcFrameData::set_frame_units_user_bits`. -/
def set_frame_units_user_bits (data bits : Nat) : Nat :=
  set_range data BIT_RANGE_FRAME_UNITS_USER_BITS bits

/-- Model of `LtcFrameData::set_frame_tens_user_bits`. -/
def set_frame_tens_user_bits (data bits : Nat) : Nat :=
  set_range data BIT_RANGE_FRAME_TENS_USER_BITS bits

/-- Model of `LtcFrameData::set_second_units_user_bits`. -/
def set_second_units_user_bits (data bits : Nat) : Nat :=
  set_range data BIT_RANGE_SECOND_UNITS_USER_BITS bits

/-- Model of `LtcFrameData::set_second_tens_user_bits`. -/
def set_second_tens_user_bits (data bits : Nat) : Nat :=
  set_range data BIT_RANGE_SECOND_TENS_USER_BITS bits

/-- Model of `LtcFrameData::set_minute_units_user_bits`. -/
def set_minute_units_user_bits (data bits : Nat) : Nat :=
  set_range data BIT_RANGE_MINUTE_UNITS_USER_BITS bits

/-- Model of `LtcFrameData::set_minute_tens_user_bits`. -/
def set_minute_tens_user_bits (data bits : Nat) : Nat :=
  set_range data BIT_RANGE_MINUTE_TENS_USER_BITS bits

/-- Model of `LtcFrameData::set_hour_units_user_bits`. -/
def set_hour_units_user_bits (data bits : Nat) : Nat :=
  set_range data BIT_RANGE_HOUR_UNITS_USER_BITS bits

/-- Model of `LtcFrameData::set_hour_tens_user_bits`. -/
def set_hour_tens_user_bits (data bits : Nat) : Nat :=
  set_range data BIT_RANGE_HOUR_TENS_USER_BITS bits

/-- Model of `LtcFrameData::get_frames`: `units + 10 * tens`. -/
def get_frames (data : Nat) : Nat :=
  get_range data BIT_RANGE_FRAME_UNITS + 10 * get_range data BIT_RANGE_FRAME_TENS

/-- Model of `LtcFrameData::get_seconds`. -/
def get_seconds (data : Nat) : Nat :=
  get_range data BIT_RANGE_SECOND_UNITS + 10 * get_range data BIT_RANGE_SECOND_TENS

/-- Model of `LtcFrameData::get_minutes`. -/
def get_minutes (data : Nat) : Nat :=
  get_range data BIT_RANGE_MINUTE_UNITS + 10 * get_range data BIT_RANGE_MINUTE_TENS

/-- Model of `LtcFrameData::get_hours`. -/
def get_hours (data : Nat) : Nat :=
  get_range data BIT_RANGE_HOUR_UNITS + 10 * get_range data BIT_RANGE_HOUR_TENS

/-- Model of `LtcFrameData::get_frame_units_user_bits`. -/
def get_frame_units_user_bits (data : Nat) : Nat :=
  get_range data BIT_RANGE_FRAME_UNITS_USER_BITS

/-- Model of `LtcFrameData::get_frame_tens_user_bits`. -/
def get_frame_tens_user_bits (data : Nat) : Nat :=
  get_range data BIT_RANGE_FRAME_TENS_USER_BITS

/-- Model of `LtcFrameData::get_second_units_user_bits`. -/
def get_second_units_user_bits (data : Nat) : Nat :=
  get_range data BIT_RANGE_SECOND_UNITS_USER_BITS

/-- Model of `LtcFrameData::get_second_tens_user_bits`. -/
def get_second_tens_user_bits (data : Nat) : Nat :=
  get_range data BIT_RANGE_SECOND_TENS_USER_BITS

/-- Model of `LtcFrameData::get_minute_units_user_bits`. -/
def get_minute_units_user_bits (data : Nat) : Nat :=
  get_range data BIT_RANGE_MINUTE_UNITS_USER_BITS

/-- Model of `LtcFrameData::get_minute_tens_user_bits`. -/
def get_minute_tens_user_bits (data : Nat) : Nat :=
  get_range data BIT_RANGE_MINUTE_TENS_USER_BITS

/-- Model of `LtcFrameData::get_hour_units_user_bits`. -/
def get_hour_units_user_bits (data : Nat) : Nat :=
  get_range data BIT_RANGE_HOUR_UNITS_USER_BITS

/-- Model of `LtcFrameData::get_hour_tens_user_bits`. -/
def get_hour_tens_user_bits (data : Nat) : Nat :=
  get_range data BIT_RANGE_HOUR_TENS_USER_BITS

/-- Encode hours, minutes, seconds, frames and the eight 4-bit user nibbles
by the field setters: `new_with_time` followed by the eight user-bit
setters. -/
def encode_with_user_bits (h m s f n1 n2 n3 n4 n5 n6 n7 n8 : Nat) : Nat :=
  set_hour_tens_user_bits
    (set_hour_units_user_bits
      (set_minute_tens_user_bits
        (set_minute_units_user_bits
          (set_second_tens_user_bits
            (set_second_units_user_bits
              (set_frame_tens_user_bits
                (set_frame_units_user_bits (new_with_time h m s f) n1) n2) n3)
              n4) n5) n6) n7) n8

/-- Model of `LtcFrameData::shift_bit_with_overflow` on the `u64` payload
register: returns the old bit 63 together with the register shifted left by
one with `bit` inserted at position 0 (after the shift, bit 0 is zero, so
`set_bit(0, bit)` is an addition). -/
def shift_bit_with_overflow (data : Nat) (bit : Bool) : Bool × Nat :=
  (data.testBit 63, 2 * data % 2 ^ 64 + if bit then 1 else 0)

/-- Model of `LtcFrame` (`src/ltc_frame/mod.rs`): the 16-bit trailing
sync-word register and the 64-bit payload register (the `LtcFrameData`
wrapper around the `u64` is flattened to the `Nat` payload itself). -/
structure LtcFrame where
  sync_word : Nat
  data : Nat
deriving DecidableEq

/-- Model of `LtcFrame::LTC_SYNC_WORD = 0b0011_1111_1111_1101`. -/
def LTC_SYNC_WORD : Nat := 0b0011111111111101

/-- Model of `LtcFrame::new_empty`. -/
def new_empty : LtcFrame := { sync_word := 0, data := 0 }

/-- Model of `LtcFrame::shift_bit`: shifts `bit` into the payload register
and the payload's overflow bit into the sync register (after `sync_word <<
1` bit 0 is zero, so `set_bit(0, overflow_bit)` is an addition). -/
def shift_bit (f : LtcFrame) (bit : Bool) : LtcFrame :=
  let ov := shift_bit_with_overflow f.data bit
  { sync_word := 2 * f.sync_word % 2 ^ 16 + if ov.1 then 1 else 0
    data := ov.2 }

/-- Model of `LtcFrame::data_valid`. -/
def data_valid (f : LtcFrame) : Bool := f.sync_word == LTC_SYNC_WORD

/-- Model of `LtcFrame::get_data`: returns a copy of the payload register
exactly when the sync register matches the sync constant. -/
def get_data (f : LtcFrame) : Option Nat :=
  if data_valid f then some f.data else none

/-- Model of `LtcFrameData::into_ltc_frame` composed with
`TimecodeFrame::new_without_user_bits`: the four digit fields decoded from
the payload register (the produced `TimecodeFrame` carries
`FramesPerSecond::Unknown` and zero user bits, which the claims do not
touch, so only the digit quadruple is returned here). -/
def into_ltc_frame (data : Nat) : Nat × Nat × Nat × Nat :=
  (get_hours data, get_minutes data, get_seconds data, get_frames data)

/-- Drive the frame assembler over a list of decoded bits, querying
`get_data` after every `shift_bit`, and collect the query results. -/
def run (f : LtcFrame) : List Bool → List (Option Nat)
  | [] => []
  | b :: bs =>
    let f1 := shift_bit f b
    get_data f1 :: run f1 bs

/-- Model of `SampleBounds`
(`src/ltc_decoder/bit_decoder/sample_bounds.rs`): the amplitude calibrator.
The generic sample type `T: Sample` is embedded as `Int`; the fixed-size
array `[T; 255]` becomes a `List Int` of length 255; the `u8` counter wraps
modulo 256. -/
structure SampleBounds where
  valid : Bool
  max_value : Int
  min_value : Int
  threshold : Int
  sample_history : List Int
  received_count : Nat
deriving DecidableEq

/-- Model of `SampleBounds::new`. -/
def SampleBounds.new : SampleBounds :=
  { valid := false
    max_value := 0
    min_value := 0
    threshold := 0
    sample_history := List.replicate 255 0
    received_count := 0 }

/-- Model of `SampleBounds::invalidate`. -/
def SampleBounds.invalidate (s : SampleBounds) : SampleBounds :=
  { s with threshold := 0, max_value := 0, min_value := 0, valid := false,
           received_count := 0 }

/-- Model of `SampleBounds::recalculate_threshold`: Rust computes
`max_value / 2 + min_value / 2` in `i128` (truncating division, embedded as
`Int.tdiv`) and converts back.  For every fixed-width sample type the
`to_i128` conversions succeed and the midpoint of the halves of two in-range
values is in range, so in this embedding the conversions are total and the
`None` branches of the source cannot fire. -/
def SampleBounds.recalculate_threshold (s : SampleBounds) : SampleBounds :=
  let max_half := Int.tdiv s.max_value 2
  let min_half := Int.tdiv s.min_value 2
  { s with valid := true, threshold := max_half + min_half }

/-- Model of `SampleBounds::recalculate`: take the minimum and maximum of
the history (`iter().min()` / `iter().max()` return `None` only for an
empty history, in which case the source invalidates), store them and
recompute the threshold. -/
def SampleBounds.recalculate (s : SampleBounds) : SampleBounds :=
  match s.sample_history.min?, s.sample_history.max? with
  | some min_val, some max_val =>
    SampleBounds.recalculate_threshold
      { s with min_value := min_val, max_value := max_val }
  | _, _ => s.invalidate

/-- Model of `SampleBounds::push_sample`: `rotate_left(1)` on the history,
overwrite slot 0, bump the `u8` counter, and on reaching `u8::MAX = 255`
reset the counter and recalculate. -/
def SampleBounds.push_sample (s : SampleBounds) (sample : Int) : SampleBounds :=
  let s1 := { s with
    sample_history := (s.sample_history.rotate 1).set 0 sample
    received_count := (s.received_count + 1) % 256 }
  if s1.received_count = 255 then
    SampleBounds.recalculate { s1 with received_count := 0 }
  else s1

/-- Model of `SampleBounds::is_high`: push the sample, then classify it
against the threshold when the bounds are valid (`High` iff
`threshold < sample`). -/
def SampleBounds.is_high (s : SampleBounds) (sample : Int) :
    Option Bool × SampleBounds :=
  let s1 := s.push_sample sample
  if s1.valid then (some (decide (s1.threshold < sample)), s1)
  else (none, s1)

/-- Model of `ZeroDetector`
(`src/ltc_decoder/bit_decoder/zero_detector.rs`).  The two sample-count
bounds are derived from the sample rate at construction; they are carried
here as plain fields. -/
structure ZeroDetector where
  min_sample_count : Nat
  max_sample_count : Nat
  is_high : Bool
  sample_count : Nat
deriving DecidableEq

/-- Model of `ZeroDetector::invalidate`. -/
def ZeroDetector.invalidate (z : ZeroDetector) : ZeroDetector :=
  { z with sample_count := 0 }

/-- Model of `ZeroDetector::is_state_change`. -/
def ZeroDetector.is_state_change (z : ZeroDetector) (ih : Bool) :
    Bool × ZeroDetector :=
  if z.is_high ≠ ih then (true, { z with is_high := ih }) else (false, z)

/-- Model of `ZeroDetector::is_end_of_zero`. -/
def ZeroDetector.is_end_of_zero (z : ZeroDetector) (ih : Bool) :
    Bool × ZeroDetector :=
  if z.sample_count = 0 then
    (false, { z with is_high := ih, sample_count := z.sample_count + 1 })
  else
    let z1 := { z with sample_count := z.sample_count + 1 }
    let c := z1.is_state_change ih
    if c.1 then
      if z1.min_sample_count ≤ c.2.sample_count ∧
          c.2.sample_count ≤ z1.max_sample_count then
        (true, c.2.invalidate)
      else (false, c.2.invalidate)
    else if z1.max_sample_count < c.2.sample_count then (false, c.2.invalidate)
    else (false, c.2)

/-- Model of `ExpectedEvents` (`src/ltc_decoder/bit_decoder/mod.rs`). -/
inductive ExpectedEvents where
  | MustBeSteadyOne
  | MustBeSteadyTwo
  | CanChangeInMiddle
  | CanChangeInEnd
  | Overdue
deriving DecidableEq

/-- Model of `BitDecoder` (`src/ltc_decoder/bit_decoder/mod.rs`): the
per-sample legality state machine.  The four sample-count thresholds are
computed from the sample rate at construction and carried as fields. -/
structure BitDecoder where
  min_number_of_samples_per_bit : Nat
  max_number_of_samples_per_bit : Nat
  min_number_of_samples_per_half_bit : Nat
  max_number_of_samples_per_half_bit : Nat
  sample_bounds : SampleBounds
  zero_detector : ZeroDetector
  heartbeat_in_sync : Bool
  sample_count_in_bit : Nat
  is_high : Bool
  has_change_in_middle_bit : Bool
deriving DecidableEq

/-- Model of `BitDecoder::invalidate`. -/
def BitDecoder.invalidate (d : BitDecoder) : BitDecoder :=
  { d with sample_bounds := d.sample_bounds.invalidate
           zero_detector := d.zero_detector.invalidate
           heartbeat_in_sync := false
           sample_count_in_bit := 0
           has_change_in_middle_bit := false }

/-- Model of `BitDecoder::reset_to_start_of_bit` (lines 133-137 of
`src/ltc_decoder/bit_decoder/mod.rs`).  The source reads
`self.sample_count_in_bit;` — an expression statement with no effect — and
then clears `has_change_in_middle_bit`; the within-bit sample counter is
therefore NOT reset, although the function's own documentation says it sets
all values to receive the next sample as the first sample of a new bit. -/
def BitDecoder.reset_to_start_of_bit (d : BitDecoder) : BitDecoder :=
  { d with has_change_in_middle_bit := false }

/-- Model of `BitDecoder::is_state_change`: compares against the stored
level and saves the current one. -/
def BitDecoder.is_state_change (d : BitDecoder) (ih : Bool) :
    Bool × BitDecoder :=
  if d.is_high ≠ ih then (true, { d with is_high := ih }) else (false, d)

/-- Model of `BitDecoder::next_expected_event`. -/
def BitDecoder.next_expected_event (d : BitDecoder) : ExpectedEvents :=
  if d.sample_count_in_bit < d.min_number_of_samples_per_half_bit then
    ExpectedEvents.MustBeSteadyOne
  else if d.sample_count_in_bit ≤ d.max_number_of_samples_per_half_bit then
    if d.has_change_in_middle_bit then ExpectedEvents.MustBeSteadyTwo
    else ExpectedEvents.CanChangeInMiddle
  else if d.sample_count_in_bit < d.min_number_of_samples_per_bit then
    ExpectedEvents.MustBeSteadyTwo
  else if d.sample_count_in_bit ≤ d.max_number_of_samples_per_bit then
    ExpectedEvents.CanChangeInEnd
  else ExpectedEvents.Overdue

/-- Body of `BitDecoder::handle_received_level` from the counter increment
on (the part executed once the heartbeat is in sync): increment the
within-bit counter, detect a level change, and resolve the expected event.
The second component of the returned pair is the error code pushed to the
debug visualization sidecar. -/
def BitDecoder.handle_level_synced (d : BitDecoder) (ih : Bool) :
    (Option Bool × Nat) × BitDecoder :=
  let d1 := { d with sample_count_in_bit := d.sample_count_in_bit + 1 }
  let c := d1.is_state_change ih
  let state_changed := c.1
  let d2 := c.2
  match d2.next_expected_event with
  | ExpectedEvents.MustBeSteadyOne =>
    if state_changed then ((none, 1), d2.invalidate) else ((none, 0), d2)
  | ExpectedEvents.MustBeSteadyTwo =>
    if state_changed then ((none, 2), d2.invalidate) else ((none, 0), d2)
  | ExpectedEvents.CanChangeInMiddle =>
    if state_changed then ((none, 0), { d2 with has_change_in_middle_bit := true })
    else ((none, 0), d2)
  | ExpectedEvents.CanChangeInEnd =>
    if state_changed then
      ((some d2.has_change_in_middle_bit, 0), d2.reset_to_start_of_bit)
    else ((none, 0), d2)
  | ExpectedEvents.Overdue => ((none, 3), d2.invalidate)

/-- Model of `BitDecoder::handle_received_level` (lines 89-131): while not
in sync, feed the zero detector; on a detected end-of-zero, mark the
heartbeat in sync, call `reset_to_start_of_bit`, store the level and fall
through to the synced handling. -/
def BitDecoder.handle_received_level (d : BitDecoder) (ih : Bool) :
    (Option Bool × Nat) × BitDecoder :=
  if d.heartbeat_in_sync then d.handle_level_synced ih
  else
    let r := d.zero_detector.is_end_of_zero ih
    let d1 := { d with zero_detector := r.2 }
    if r.1 then
      let d2 := ({ d1 with heartbeat_in_sync := true }).reset_to_start_of_bit
      let d3 := { d2 with is_high := ih }
      d3.handle_level_synced ih
    else ((none, 0), d1)

/-- Model of `BitDecoder::push_sample` (lines 67-85): classify the sample
via `SampleBounds::is_high`; when no classification is available yet,
return `None` with only the calibrator advanced; otherwise handle the
level.  The `AudioImage` debug sidecar of the source is out of scope. -/
def BitDecoder.push_sample (d : BitDecoder) (sample : Int) :
    Option Bool × BitDecoder :=
  let r := d.sample_bounds.is_high sample
  let d1 := { d with sample_bounds := r.2 }
  match r.1 with
  | some ih =>
    let h := d1.handle_received_level ih
    (h.1.1, h.2)
  | none => (none, d1)

end V1

namespace V2

/-- Model of `FramesPerSecond` (`src/src/lib.rs`). -/
inductive FramesPerSecond where
  | Unknown
  | TwentyFour
  | TwentyFive
  | Thirty
deriving DecidableEq

/-- Model of `TimecodeFrame` (`src/src/lib.rs`): the four `u8` digit fields
are embedded as `Nat` (with `% 256` applied wherever the Rust `u8`
increments may wrap) together with the frame-rate classification. -/
structure TimecodeFrame where
  hours : Nat
  minutes : Nat
  seconds : Nat
  frames : Nat
  frames_per_second : FramesPerSecond
deriving DecidableEq

/-- Model of `TimecodeFrame::add_frame`: increment `frames`; under a known
frame rate, on reaching the modulus reset `frames` and carry into
`seconds`; then the two trailing carry checks on `seconds` and `minutes`. -/
def add_frame (t : TimecodeFrame) : TimecodeFrame :=
  let t1 := { t with frames := (t.frames + 1) % 256 }
  let t2 :=
    match t1.frames_per_second with
    | FramesPerSecond.Unknown => t1
    | FramesPerSecond.TwentyFour =>
      if 24 ≤ t1.frames then
        { t1 with frames := 0, seconds := (t1.seconds + 1) % 256 }
      else t1
    | FramesPerSecond.TwentyFive =>
      if 25 ≤ t1.frames then
        { t1 with frames := 0, seconds := (t1.seconds + 1) % 256 }
      else t1
    | FramesPerSecond.Thirty =>
      if 30 ≤ t1.frames then
        { t1 with frames := 0, seconds := (t1.seconds + 1) % 256 }
      else t1
  let t3 :=
    if 59 < t2.seconds then
      { t2 with seconds := 0, minutes := (t2.minutes + 1) % 256 }
    else t2
  if 59 < t3.minutes then
    { t3 with minutes := 0, hours := (t3.hours + 1) % 256 }
  else t3

/-- Model of `FramesPerSecond::DURATION_THIRTY_FULL_FRAME_IN_S`, the literal
`0.033_333_33`; the `f32` constants of the source are embedded as the exact
rational values of their decimal literals. -/
def DURATION_THIRTY_FULL_FRAME_IN_S : ℚ := 3333333 / 100000000

/-- Model of `FramesPerSecond::DURATION_TWENTY_FIVE_FULL_FRAME_IN_S`, the
literal `0.04`. -/
def DURATION_TWENTY_FIVE_FULL_FRAME_IN_S : ℚ := 4 / 100

/-- Model of `FramesPerSecond::DURATION_TWENTY_FOUR_FULL_FRAME_IN_S`, the
literal `0.041_666_66`. -/
def DURATION_TWENTY_FOUR_FULL_FRAME_IN_S : ℚ := 4166666 / 100000000

/-- Model of `FramesPerSecond::DURATION_TWENTY_FOUR_WITHOUT_SYNC_WORD_IN_S`:
the full-frame duration scaled by `64 / 80`. -/
def DURATION_TWENTY_FOUR_WITHOUT_SYNC_WORD_IN_S : ℚ :=
  DURATION_TWENTY_FOUR_FULL_FRAME_IN_S * 64 / 80

/-- Model of
`FramesPerSecond::DURATION_TWENTY_FIVE_WITHOUT_SYNC_WORD_IN_S`. -/
def DURATION_TWENTY_FIVE_WITHOUT_SYNC_WORD_IN_S : ℚ :=
  DURATION_TWENTY_FIVE_FULL_FRAME_IN_S * 64 / 80

/-- Model of `FramesPerSecond::DURATION_THIRTY_WITHOUT_SYNC_WORD_IN_S`. -/
def DURATION_THIRTY_WITHOUT_SYNC_WORD_IN_S : ℚ :=
  DURATION_THIRTY_FULL_FRAME_IN_S * 64 / 80

/-- Model of the tolerance window
`FramesPerSecond::DURATION_BOUND_TWENTY_FOUR_WITHOUT_SYNC_WORD_IN_S`:
the nominal sync-word-free duration scaled by `0.98` and `1.02`. -/
def DURATION_BOUND_TWENTY_FOUR_WITHOUT_SYNC_WORD_IN_S : ℚ × ℚ :=
  (DURATION_TWENTY_FOUR_WITHOUT_SYNC_WORD_IN_S * 98 / 100,
   DURATION_TWENTY_FOUR_WITHOUT_SYNC_WORD_IN_S * 102 / 100)

/-- Model of
`FramesPerSecond::DURATION_BOUND_THWENTY_FIVE_WITHOUT_SYNC_WORD_IN_S`. -/
def DURATION_BOUND_THWENTY_FIVE_WITHOUT_SYNC_WORD_IN_S : ℚ × ℚ :=
  (DURATION_TWENTY_FIVE_WITHOUT_SYNC_WORD_IN_S * 98 / 100,
   DURATION_TWENTY_FIVE_WITHOUT_SYNC_WORD_IN_S * 102 / 100)

/-- Model of
`FramesPerSecond::DURATION_BOUND_THIRTY_WITHOUT_SYNC_WORD_IN_S`. -/
def DURATION_BOUND_THIRTY_WITHOUT_SYNC_WORD_IN_S : ℚ × ℚ :=
  (DURATION_THIRTY_WITHOUT_SYNC_WORD_IN_S * 98 / 100,
   DURATION_THIRTY_WITHOUT_SYNC_WORD_IN_S * 102 / 100)

/-- Model of `FramesPerSecond::is_in_duration_bounds`: strict containment in
the open interval. -/
def is_in_duration_bounds (frames_duration_s : ℚ) (bounds : ℚ × ℚ) : Bool :=
  decide (bounds.1 < frames_duration_s) && decide (frames_duration_s < bounds.2)

/-- Model of `FramesPerSecond::from_frame_duration_without_syncword_in_s`:
test the 24 fps window, then 25 fps, then 30 fps; otherwise `Unknown`. -/
def from_frame_duration_without_syncword_in_s (frames_duration_s : ℚ) :
    FramesPerSecond :=
  if is_in_duration_bounds frames_duration_s
      DURATION_BOUND_TWENTY_FOUR_WITHOUT_SYNC_WORD_IN_S then
    FramesPerSecond.TwentyFour
  else if is_in_duration_bounds frames_duration_s
      DURATION_BOUND_THWENTY_FIVE_WITHOUT_SYNC_WORD_IN_S then
    FramesPerSecond.TwentyFive
  else if is_in_duration_bounds frames_duration_s
      DURATION_BOUND_THIRTY_WITHOUT_SYNC_WORD_IN_S then
    FramesPerSecond.Thirty
  else
    FramesPerSecond.Unknown

/-- Rollover modulus implied by a frame-rate classification (none for
`Unknown`, where the claim calls the rollover a no-op). -/
def rollover_modulus : FramesPerSecond → Option Nat
  | FramesPerSecond.Unknown => none
  | FramesPerSecond.TwentyFour => some 24
  | FramesPerSecond.TwentyFive => some 25
  | FramesPerSecond.Thirty => some 30

/-- Upper bound on in-range `frames` values for a classification: the
rollover modulus for a known rate, and the largest `u8` value under
`Unknown` (where no modulus applies and `frames` merely increments). -/
def frames_bound : FramesPerSecond → Nat
  | FramesPerSecond.Unknown => 255
  | FramesPerSecond.TwentyFour => 24
  | FramesPerSecond.TwentyFive => 25
  | FramesPerSecond.Thirty => 30

/-- Reference definition following the claim's words: increment `frames`;
when `frames` reaches the modulus implied by the classification (a no-op
under `Unknown`), reset it to 0 and carry into seconds and then minutes
with modulus 60 each, then into hours (as the `u8` increment the source
performs). -/
def advance_one_frame_spec (t : TimecodeFrame) : TimecodeFrame :=
  match rollover_modulus t.frames_per_second with
  | none => { t with frames := t.frames + 1 }
  | some md =>
    if t.frames + 1 < md then { t with frames := t.frames + 1 }
    else
      { t with
        frames := 0
        seconds := (t.seconds + 1) % 60
        minutes := if t.seconds + 1 = 60 then (t.minutes + 1) % 60 else t.minutes
        hours :=
          if t.seconds + 1 = 60 ∧ t.minutes + 1 = 60 then (t.hours + 1) % 256
          else t.hours }

/-- Model of the second-generation `LtcFrame`
(`src/src/ltc_frame/mod.rs`): sync register, payload register and the
frame-duration sample counter.  The payload's `LtcFrameData` wrapper is
flattened to its `u64` register embedded as `Nat`. -/
structure LtcFrame where
  sync_word : Nat
  data : Nat
  frame_data_sample_count : Nat
deriving DecidableEq

/-- Model of the second-generation `LtcFrame::LTC_SYNC_WORD`. -/
def LTC_SYNC_WORD : Nat := 0b0011111111111101

/-- Modelled from the spec: `LtcFrameData::invalidate` of the
second-generation crate is declared in `src/src/ltc_frame/ltc_frame_data.rs`,
which is absent from the sources; per the spec ("Invalidation zeroes both
registers"), it zeroes the 64-bit payload register. -/
def LtcFrameData.invalidate (_data : Nat) : Nat := 0

/-- Model of the second-generation `LtcFrame::invalidate`
(`src/src/ltc_frame/mod.rs`, lines 31-36): `data.invalidate()` and
`sync_word = 0`.  The source touches no other field. -/
def invalidate (f : LtcFrame) : LtcFrame :=
  { f with data := LtcFrameData.invalidate f.data, sync_word := 0 }

end V2

/-- Value of an `n`-bit register whose bit `i` is `f i`. -/
def regVal : Nat → (Nat → Bool) → Nat
  | 0, _ => 0
  | n + 1, f => (if f 0 then 1 else 0) + 2 * regVal n fun i => f (i + 1)

/-- Bit pushed `i` steps ago in the bit list `L` (most recent push last);
`false` for times before the start of the stream, matching the zeroed
registers at construction. -/
def revGet (L : List Bool) (i : Nat) : Bool := L.reverse.getD i false

/-- Value the 64-bit payload register holds when it contains exactly the 64
bits of `p`, first-transmitted bit at position 63. -/
def payload_value (p : List Bool) : Nat := regVal 64 (revGet p)

/-- The 16 bits of the LTC sync word in transmission order (the first
pushed bit ends up at position 15 of the sync register). -/
def syncBits : List Bool :=
  [false, false, true, true, true, true, true, true, true, true, true, true,
   true, true, false, true]

/-- Bitstream prefix consisting of `k` whole repetitions of
`<payload><sync word>` followed by the `k`-th payload (`0`-indexed). -/
def prefixStream (ps : List (List Bool)) (k : Nat) : List Bool :=
  ((ps.take k).map fun p => p ++ syncBits).flatten ++ ps.getD k []

/-- State of the `V1` frame assembler after shifting in the bits of `L`. -/
def stFrame (L : List Bool) : V1.LtcFrame := L.foldl V1.shift_bit V1.new_empty

/-- History-array update done by one `SampleBounds::push_sample`:
`rotate_left(1)` followed by overwriting slot 0. -/
def rawPush (h : List Int) (sample : Int) : List Int :=
  (h.rotate 1).set 0 sample

/-- Concrete `44100 Hz` bit decoder state used to exhibit the
`reset_to_start_of_bit` slip: heartbeat locked, thresholds
`(min_bit, max_bit, min_half, max_half) = (15, 25, 6, 13)` as computed by
`sample_rater.rs` for a 44100 Hz sample rate, 20 samples into the current
bit, currently low, no mid-bit change yet, calibrator valid with threshold
0. -/
def c1State : V1.BitDecoder :=
  { min_number_of_samples_per_bit := 15
    max_number_of_samples_per_bit := 25
    min_number_of_samples_per_half_bit := 6
    max_number_of_samples_per_half_bit := 13
    sample_bounds :=
      { valid := true
        max_value := 100
        min_value := -100
        threshold := 0
        sample_history := List.replicate 255 0
        received_count := 0 }
    zero_detector :=
      { min_sample_count := 15
        max_sample_count := 25
        is_high := false
        sample_count := 0 }
    heartbeat_in_sync := true
    sample_count_in_bit := 20
    is_high := false
    has_change_in_middle_bit := false }

/-- Concrete 255-sample run for the calibration claims: 253 zeros plus one
`-1` and one `234` (the values of the repository's own
`test_recalculate`). -/
def c3Samples : List Int := -1 :: 234 :: List.replicate 253 0

/-- Concrete state for the C9 witness: a fresh bit decoder (44100 Hz
thresholds) whose calibrator has seen no samples yet. -/
def c9State : V1.BitDecoder :=
  { min_number_of_samples_per_bit := 15
    max_number_of_samples_per_bit := 25
    min_number_of_samples_per_half_bit := 6
    max_number_of_samples_per_half_bit := 13
    sample_bounds := V1.SampleBounds.new
    zero_detector :=
      { min_sample_count := 15
        max_sample_count := 25
        is_high := false
        sample_count := 0 }
    heartbeat_in_sync := false
    sample_count_in_bit := 0
    is_high := false
    has_change_in_middle_bit := false }

section BitRangeLemmas

/-- Extracting a bit range only looks at the register below bit `hi`. -/
lemma get_bits_eq_mod_div (x lo hi : Nat) (h : lo ≤ hi) :
    V1.get_bits x lo hi = x % 2 ^ hi / 2 ^ lo := by
  unfold V1.get_bits
  rw [← Nat.mod_mul_right_div_self, ← pow_add, Nat.add_sub_cancel' h]

/-- Reading back the range just written returns the written value. -/
lemma get_bits_set_bits_same (x v lo hi : Nat) (h1 : lo ≤ hi)
    (h2 : v < 2 ^ (hi - lo)) :
    V1.get_bits (V1.set_bits x lo hi v) lo hi = v := by
  unfold V1.get_bits V1.set_bits
  have hpow : (2 : Nat) ^ hi = 2 ^ lo * 2 ^ (hi - lo) := by
    rw [← pow_add, Nat.add_sub_cancel' h1]
  rw [Nat.mod_eq_of_lt h2, hpow]
  have hS : x % 2 ^ lo + 2 ^ lo * 2 ^ (hi - lo) * (x / (2 ^ lo * 2 ^ (hi - lo)))
      + 2 ^ lo * v
      = x % 2 ^ lo + 2 ^ lo * (2 ^ (hi - lo) * (x / (2 ^ lo * 2 ^ (hi - lo))) + v) := by
    ring
  rw [hS, Nat.add_mul_div_left _ _ (Nat.pos_pow_of_pos lo (by norm_num)),
    Nat.div_eq_of_lt (Nat.mod_lt x (Nat.pos_pow_of_pos lo (by norm_num))),
    Nat.zero_add, Nat.mul_add_mod, Nat.mod_eq_of_lt h2]

/-- Writing a range strictly above the read range leaves the read
unchanged. -/
lemma get_bits_set_bits_below (x v lo hi lo' hi' : Nat) (h : hi ≤ lo')
    (h' : lo' ≤ hi') (hlh : lo ≤ hi) :
    V1.get_bits (V1.set_bits x lo' hi' v) lo hi = V1.get_bits x lo hi := by
  rw [get_bits_eq_mod_div _ _ _ hlh, get_bits_eq_mod_div _ _ _ hlh]
  unfold V1.set_bits
  have e1 : (2 : Nat) ^ lo' = 2 ^ hi * 2 ^ (lo' - hi) := by
    rw [← pow_add, Nat.add_sub_cancel' h]
  have e2 : (2 : Nat) ^ hi' = 2 ^ hi * 2 ^ (hi' - hi) := by
    rw [← pow_add, Nat.add_sub_cancel' (le_trans h h')]
  have m1 : x % 2 ^ lo' % 2 ^ hi = x % 2 ^ hi :=
    Nat.mod_mod_of_dvd x (pow_dvd_pow 2 h)
  rw [Nat.add_mod, Nat.add_mod (x % 2 ^ lo'), m1, e1, e2]
  have z1 : 2 ^ hi * 2 ^ (hi' - hi) * (x / (2 ^ hi * 2 ^ (hi' - hi))) % 2 ^ hi
      = 0 := by
    rw [mul_assoc]
    exact Nat.mul_mod_right _ _
  have z2 : 2 ^ hi * 2 ^ (lo' - hi) * (v % 2 ^ (hi' - lo')) % 2 ^ hi = 0 := by
    rw [mul_assoc]
    exact Nat.mul_mod_right _ _
  rw [z1, z2, Nat.add_zero, Nat.add_zero, Nat.mod_mod_of_dvd _ dvd_rfl,
    Nat.mod_mod_of_dvd _ dvd_rfl]

/-- Writing a range strictly below the read range leaves the read
unchanged. -/
lemma get_bits_set_bits_above (x v lo hi lo' hi' : Nat) (h : hi' ≤ lo)
    (h' : lo' ≤ hi') :
    V1.get_bits (V1.set_bits x lo' hi' v) lo hi = V1.get_bits x lo hi := by
  unfold V1.get_bits V1.set_bits
  have key : (x % 2 ^ lo' + 2 ^ hi' * (x / 2 ^ hi')
      + 2 ^ lo' * (v % 2 ^ (hi' - lo'))) / 2 ^ lo = x / 2 ^ lo := by
    have hN : x % 2 ^ lo' + 2 ^ lo' * (v % 2 ^ (hi' - lo')) < 2 ^ hi' := by
      have b1 : x % 2 ^ lo' < 2 ^ lo' :=
        Nat.mod_lt x (Nat.pos_pow_of_pos lo' (by norm_num))
      have b2 : v % 2 ^ (hi' - lo') < 2 ^ (hi' - lo') :=
        Nat.mod_lt v (Nat.pos_pow_of_pos _ (by norm_num))
      have hpow : (2 : Nat) ^ hi' = 2 ^ lo' * 2 ^ (hi' - lo') := by
        rw [← pow_add, Nat.add_sub_cancel' h']
      calc x % 2 ^ lo' + 2 ^ lo' * (v % 2 ^ (hi' - lo'))
          < 2 ^ lo' + 2 ^ lo' * (v % 2 ^ (hi' - lo')) := by omega
        _ ≤ 2 ^ lo' + 2 ^ lo' * (2 ^ (hi' - lo') - 1) := by
            have : v % 2 ^ (hi' - lo') ≤ 2 ^ (hi' - lo') - 1 := by omega
            exact Nat.add_le_add_left (Nat.mul_le_mul_left _ this) _
        _ = 2 ^ lo' * 2 ^ (hi' - lo') := by
            have hx : (1 : Nat) ≤ 2 ^ (hi' - lo') := Nat.one_le_two_pow
            have hmul : 2 ^ lo' * (2 ^ (hi' - lo') - 1)
                = 2 ^ lo' * 2 ^ (hi' - lo') - 2 ^ lo' * 1 := by
              rw [Nat.mul_sub]
            have hle : 2 ^ lo' * 1 ≤ 2 ^ lo' * 2 ^ (hi' - lo') :=
              Nat.mul_le_mul_left _ hx
            omega
        _ = 2 ^ hi' := hpow.symm
    have hdiv : (x % 2 ^ lo' + 2 ^ hi' * (x / 2 ^ hi')
        + 2 ^ lo' * (v % 2 ^ (hi' - lo'))) / 2 ^ hi' = x / 2 ^ hi' := by
      have e : x % 2 ^ lo' + 2 ^ hi' * (x / 2 ^ hi')
          + 2 ^ lo' * (v % 2 ^ (hi' - lo'))
          = (x % 2 ^ lo' + 2 ^ lo' * (v % 2 ^ (hi' - lo')))
            + 2 ^ hi' * (x / 2 ^ hi') := by ring
      rw [e, Nat.add_mul_div_left _ _ (Nat.pos_pow_of_pos hi' (by norm_num)),
        Nat.div_eq_of_lt hN, Nat.zero_add]
    have elo : (2 : Nat) ^ lo = 2 ^ hi' * 2 ^ (lo - hi') := by
      rw [← pow_add, Nat.add_sub_cancel' h]
    rw [elo, ← Nat.div_div_eq_div_mul, ← Nat.div_div_eq_div_mul, hdiv]
  rw [key]

end BitRangeLemmas

section CalibratorLemmas

/-- Folding `min` over an integer list yields a member of the seed-extended
list that bounds the seed and every element from below. -/
lemma foldl_min_spec (l : List Int) :
    ∀ a : Int, l.foldl min a ∈ a :: l ∧ l.foldl min a ≤ a ∧
      ∀ b ∈ l, l.foldl min a ≤ b := by
  induction l with
  | nil =>
    intro a
    simp
  | cons c t ih =>
    intro a
    obtain ⟨hmem, hle, hall⟩ := ih (min a c)
    rw [List.foldl_cons]
    refine ⟨?_, le_trans hle (min_le_left _ _), ?_⟩
    · rcases List.mem_cons.mp hmem with h | h
      · rcases min_choice a c with hc | hc <;> rw [h, hc]
        · exact List.mem_cons_self _ _
        · exact List.mem_cons_of_mem _ (List.mem_cons_self _ _)
      · exact List.mem_cons_of_mem _ (List.mem_cons_of_mem _ h)
    · intro b hb
      rcases List.mem_cons.mp hb with rfl | hbt
      · exact le_trans hle (min_le_right _ _)
      · exact hall b hbt

/-- Folding `max` over an integer list yields a member of the seed-extended
list that bounds the seed and every element from above. -/
lemma foldl_max_spec (l : List Int) :
    ∀ a : Int, l.foldl max a ∈ a :: l ∧ a ≤ l.foldl max a ∧
      ∀ b ∈ l, b ≤ l.foldl max a := by
  induction l with
  | nil =>
    intro a
    simp
  | cons c t ih =>
    intro a
    obtain ⟨hmem, hle, hall⟩ := ih (max a c)
    rw [List.foldl_cons]
    refine ⟨?_, le_trans (le_max_left _ _) hle, ?_⟩
    · rcases List.mem_cons.mp hmem with h | h
      · rcases max_choice a c with hc | hc <;> rw [h, hc]
        · exact List.mem_cons_self _ _
        · exact List.mem_cons_of_mem _ (List.mem_cons_self _ _)
      · exact List.mem_cons_of_mem _ (List.mem_cons_of_mem _ h)
    · intro b hb
      rcases List.mem_cons.mp hb with rfl | hbt
      · exact le_trans (le_max_right _ _) hle
      · exact hall b hbt

/-- Characterization of `List.min?` on integer lists: it returns a member
that is a lower bound. -/
lemma min?_int_spec (l : List Int) (a : Int) (h : l.min? = some a) :
    a ∈ l ∧ ∀ b ∈ l, a ≤ b := by
  cases l with
  | nil => simp [List.min?] at h
  | cons c t =>
    simp only [List.min?, Option.some_inj] at h
    obtain ⟨hmem, hle, hall⟩ := foldl_min_spec t c
    rw [h] at hmem hle hall
    exact ⟨hmem, fun b hb => by
      rcases List.mem_cons.mp hb with rfl | hbt
      · exact hle
      · exact hall b hbt⟩

/-- Characterization of `List.max?` on integer lists: it returns a member
that is an upper bound. -/
lemma max?_int_spec (l : List Int) (a : Int) (h : l.max? = some a) :
    a ∈ l ∧ ∀ b ∈ l, b ≤ a := by
  cases l with
  | nil => simp [List.max?] at h
  | cons c t =>
    simp only [List.max?, Option.some_inj] at h
    obtain ⟨hmem, hle, hall⟩ := foldl_max_spec t c
    rw [h] at hmem hle hall
    exact ⟨hmem, fun b hb => by
      rcases List.mem_cons.mp hb with rfl | hbt
      · exact hle
      · exact hall b hbt⟩

/-- One raw push on a history with at least two entries drops the entry at
slot 1, keeps the remainder, and cycles the old head to the back. -/
lemma rawPush_cons (a b : Int) (t : List Int) (s : Int) :
    rawPush (a :: b :: t) s = s :: (t ++ [a]) := by
  unfold rawPush
  rw [List.rotate_cons_succ, List.rotate_zero]
  rfl

/-- Invariant of repeated raw pushes: pushing one sample per remaining old
entry replaces the whole window by the pushed samples (up to order).  The
state is presented as `cur :: (rest ++ h0 :: pre)` where `pre` collects
already-pushed samples. -/
lemma foldl_rawPush_aux :
    ∀ (rest ss pre : List Int) (cur h0 : Int),
      ss.length = rest.length + 1 →
      (ss.foldl rawPush (cur :: (rest ++ h0 :: pre))).Perm
        (ss ++ pre ++ [cur]) := by
  intro rest
  induction rest with
  | nil =>
    intro ss pre cur h0 hss
    match ss, hss with
    | [s], _ =>
      simp only [List.nil_append, List.foldl_cons, List.foldl_nil]
      rw [rawPush_cons]
      simp
  | cons r rest' ih =>
    intro ss pre cur h0 hss
    match ss, hss with
    | s :: ss', hss =>
      simp only [List.length_cons, Nat.add_right_cancel_iff] at hss
      rw [List.foldl_cons, List.cons_append, rawPush_cons]
      have e : (rest' ++ h0 :: pre) ++ [cur] = rest' ++ h0 :: (pre ++ [cur]) := by
        simp
      rw [e]
      refine (ih ss' (pre ++ [cur]) s h0 hss).trans ?_
      have p1 : (ss' ++ (pre ++ [cur]) ++ [s]).Perm (s :: (ss' ++ (pre ++ [cur]))) :=
        List.perm_append_singleton _ _
      refine p1.trans ?_
      simp

/-- Pushing exactly as many samples as the window holds makes the history a
permutation of the pushed samples. -/
lemma foldl_rawPush_perm (hist ss : List Int) (hh : hist.length = 255)
    (hs : ss.length = 255) :
    (ss.foldl rawPush hist).Perm ss := by
  match hist, hh with
  | a :: b :: t, hh =>
    match ss, hs with
    | s :: ss', hs =>
      simp only [List.length_cons] at hh hs
      rw [List.foldl_cons, rawPush_cons]
      have hshape : s :: (t ++ [a]) = s :: (t ++ a :: ([] : List Int)) := by simp
      rw [hshape]
      have ht : ss'.length = t.length + 1 := by omega
      refine (foldl_rawPush_aux t ss' [] s a ht).trans ?_
      simp

/-- Folding `push_sample` while the wrap point is not reached only rotates
the history and counts, leaving every other calibrator field untouched. -/
lemma foldl_push_sample_below (ss : List Int) :
    ∀ s0 : V1.SampleBounds, s0.received_count + ss.length ≤ 254 →
      ss.foldl V1.SampleBounds.push_sample s0
        = { s0 with
            sample_history := ss.foldl rawPush s0.sample_history
            received_count := s0.received_count + ss.length } := by
  induction ss with
  | nil =>
    intro s0 h
    simp
  | cons a t ih =>
    intro s0 h
    simp only [List.length_cons] at h
    have hps : V1.SampleBounds.push_sample s0 a
        = { s0 with
            sample_history := rawPush s0.sample_history a
            received_count := s0.received_count + 1 } := by
      unfold V1.SampleBounds.push_sample rawPush
      have hm : (s0.received_count + 1) % 256 = s0.received_count + 1 :=
        Nat.mod_eq_of_lt (by omega)
      simp only [hm]
      rw [if_neg (by omega)]
    have hrec := ih
      { s0 with
        sample_history := rawPush s0.sample_history a
        received_count := s0.received_count + 1 }
      (by show s0.received_count + 1 + t.length ≤ 254; omega)
    rw [List.foldl_cons, hps, hrec, List.foldl_cons]
    simp only [V1.SampleBounds.mk.injEq, List.length_cons, true_and]
    omega

/-- The push that reaches the wrap point resets the counter and triggers a
recalculation on the rotated history. -/
lemma push_sample_at_254 (s0 : V1.SampleBounds) (a : Int)
    (h : s0.received_count = 254) :
    V1.SampleBounds.push_sample s0 a
      = V1.SampleBounds.recalculate
          { s0 with
            sample_history := rawPush s0.sample_history a
            received_count := 0 } := by
  unfold V1.SampleBounds.push_sample rawPush
  rw [h]
  norm_num

/-- Effect of `recalculate` on a nonempty history: the bounds become the
`min?`/`max?` of the window and the threshold the sum of their truncated
halves. -/
lemma recalculate_spec (s : V1.SampleBounds) (hne : s.sample_history ≠ []) :
    ∃ mn mx, s.sample_history.min? = some mn ∧ s.sample_history.max? = some mx ∧
      V1.SampleBounds.recalculate s
        = { s with
            min_value := mn
            max_value := mx
            valid := true
            threshold := Int.tdiv mx 2 + Int.tdiv mn 2 } := by
  cases s with
  | mk v mxv mnv th hist rc =>
    cases hist with
    | nil => simp at hne
    | cons c t =>
      refine ⟨t.foldl min c, t.foldl max c, rfl, rfl, ?_⟩
      unfold V1.SampleBounds.recalculate
      simp [List.min?, List.max?, V1.SampleBounds.recalculate_threshold]

/-- Main calibration lemma: starting from a just-recalculated or
just-invalidated calibrator (`received_count = 0`) with a full 255-slot
history, pushing any 255 samples triggers exactly one recalculation, after
which the history window is a permutation of the pushed samples, `min`/`max`
are the true minimum and maximum of that window, the threshold is
`max / 2 + min / 2` with truncating division, and the calibrator is
valid. -/
lemma calibration_fold_spec (s0 : V1.SampleBounds) (ss : List Int)
    (hrc : s0.received_count = 0) (hlen : s0.sample_history.length = 255)
    (hss : ss.length = 255) :
    ((ss.foldl V1.SampleBounds.push_sample s0).sample_history).Perm ss ∧
    (ss.foldl V1.SampleBounds.push_sample s0).min_value ∈ ss ∧
    (∀ x ∈ ss, (ss.foldl V1.SampleBounds.push_sample s0).min_value ≤ x) ∧
    (ss.foldl V1.SampleBounds.push_sample s0).max_value ∈ ss ∧
    (∀ x ∈ ss, x ≤ (ss.foldl V1.SampleBounds.push_sample s0).max_value) ∧
    (ss.foldl V1.SampleBounds.push_sample s0).threshold
      = Int.tdiv (ss.foldl V1.SampleBounds.push_sample s0).max_value 2
        + Int.tdiv (ss.foldl V1.SampleBounds.push_sample s0).min_value 2 ∧
    (ss.foldl V1.SampleBounds.push_sample s0).valid = true := by
  have hne : ss ≠ [] := by
    intro h0
    rw [h0] at hss
    simp at hss
  have hsplit : ss.dropLast ++ [ss.getLast hne] = ss :=
    List.dropLast_append_getLast hne
  have hLlen : ss.dropLast.length = 254 := by
    rw [List.length_dropLast, hss]
  have h2 := foldl_push_sample_below ss.dropLast s0 (by omega)
  have h254 : (ss.dropLast.foldl V1.SampleBounds.push_sample s0).received_count
      = 254 := by
    rw [h2]
    simp [hrc, hLlen]
  have h1 : ss.foldl V1.SampleBounds.push_sample s0
      = V1.SampleBounds.push_sample
          (ss.dropLast.foldl V1.SampleBounds.push_sample s0) (ss.getLast hne) := by
    conv_lhs => rw [← hsplit]
    rw [List.foldl_append]
    rfl
  have h3 := push_sample_at_254 _ (ss.getLast hne) h254
  have hHF : rawPush (ss.dropLast.foldl rawPush s0.sample_history) (ss.getLast hne)
      = ss.foldl rawPush s0.sample_history := by
    conv_rhs => rw [← hsplit]
    rw [List.foldl_append]
    rfl
  have hperm : (ss.foldl rawPush s0.sample_history).Perm ss :=
    foldl_rawPush_perm _ _ hlen hss
  have hFne : ss.foldl rawPush s0.sample_history ≠ [] := by
    intro h0
    have hl := hperm.length_eq
    rw [h0, hss] at hl
    simp at hl
  have hstate : ss.foldl V1.SampleBounds.push_sample s0
      = V1.SampleBounds.recalculate
          { s0 with
            sample_history := ss.foldl rawPush s0.sample_history
            received_count := 0 } := by
    rw [h1, h3, h2]
    simp only [← hHF]
  obtain ⟨mn, mx, hmn, hmx, hrecalc⟩ :=
    recalculate_spec
      { s0 with
        sample_history := ss.foldl rawPush s0.sample_history
        received_count := 0 }
      (by simpa using hFne)
  rw [hstate, hrecalc]
  obtain ⟨hmnmem, hmnle⟩ := min?_int_spec _ _ hmn
  obtain ⟨hmxmem, hmxge⟩ := max?_int_spec _ _ hmx
  simp only at hmnmem hmnle hmxmem hmxge
  refine ⟨hperm, ?_, ?_, ?_, ?_, rfl, rfl⟩
  · exact hperm.mem_iff.mp hmnmem
  · intro x hx
    exact hmnle x (hperm.mem_iff.mpr hx)
  · exact hperm.mem_iff.mp hmxmem
  · intro x hx
    exact hmxge x (hperm.mem_iff.mpr hx)

end CalibratorLemmas

section FrameAssemblerLemmas

/-- Register value of the all-zero bit function. -/
lemma regVal_false : ∀ n : Nat, regVal n (fun _ => false) = 0 := by
  intro n
  induction n with
  | zero => rfl
  | succ n ih => simp [regVal, ih]

/-- The register value only depends on the bits below the width. -/
lemma regVal_congr : ∀ (n : Nat) (f g : Nat → Bool),
    (∀ i, i < n → f i = g i) → regVal n f = regVal n g := by
  intro n
  induction n with
  | zero =>
    intro f g _
    rfl
  | succ n ih =>
    intro f g h
    simp only [regVal]
    rw [h 0 (by omega), ih _ _ fun i hi => h (i + 1) (by omega)]

/-- A register value is bounded by the register width. -/
lemma regVal_lt : ∀ (n : Nat) (f : Nat → Bool), regVal n f < 2 ^ n := by
  intro n
  induction n with
  | zero =>
    intro f
    simp [regVal]
  | succ n ih =>
    intro f
    have hr := ih fun i => f (i + 1)
    have hb : (if f 0 then 1 else 0) ≤ 1 := by split <;> simp
    simp only [regVal]
    rw [pow_succ]
    omega

/-- Truncating a register value to a smaller width keeps the low bits. -/
lemma regVal_mod : ∀ (m n : Nat) (f : Nat → Bool), m ≤ n →
    regVal n f % 2 ^ m = regVal m f := by
  intro m
  induction m with
  | zero =>
    intro n f _
    simp [regVal, Nat.mod_one]
  | succ m ih =>
    intro n f h
    match n, h with
    | n' + 1, h =>
      simp only [regVal]
      have hR := ih n' (fun i => f (i + 1)) (by omega)
      have hb : (if f 0 then 1 else 0) ≤ 1 := by split <;> simp
      have hsplit : (if f 0 then 1 else 0) + 2 * regVal n' (fun i => f (i + 1))
          = (if f 0 then 1 else 0)
            + 2 * (regVal n' (fun i => f (i + 1)) % 2 ^ m)
            + 2 ^ m * 2 * (regVal n' (fun i => f (i + 1)) / 2 ^ m) := by
        have hdm := Nat.div_add_mod (regVal n' fun i => f (i + 1)) (2 ^ m)
        have e : 2 * regVal n' (fun i => f (i + 1))
            = 2 * (2 ^ m * (regVal n' (fun i => f (i + 1)) / 2 ^ m)
                + regVal n' (fun i => f (i + 1)) % 2 ^ m) := by
          rw [hdm]
        rw [e]
        ring
      rw [pow_succ, hsplit, Nat.add_mul_mod_self_left, hR]
      have hlt : (if f 0 then 1 else 0)
          + 2 * regVal m (fun i => f (i + 1)) < 2 ^ m * 2 := by
        have := regVal_lt m fun i => f (i + 1)
        omega
      exact Nat.mod_eq_of_lt hlt

/-- Bits of a register value below the width are the defining bits. -/
lemma regVal_testBit : ∀ (n : Nat) (f : Nat → Bool) (i : Nat), i < n →
    (regVal n f).testBit i = f i := by
  intro n
  induction n with
  | zero =>
    intro f i hi
    omega
  | succ n ih =>
    intro f i hi
    cases i with
    | zero =>
      simp only [regVal, Nat.testBit_zero]
      rcases hf : f 0 with hv | hv <;>
        simp [hf, Nat.add_mul_mod_self_left, Nat.mul_comm]
    | succ i =>
      simp only [regVal, Nat.testBit_succ]
      have hdiv : ((if f 0 then 1 else 0) + 2 * regVal n fun j => f (j + 1)) / 2
          = regVal n fun j => f (j + 1) := by
        have hb : (if f 0 then 1 else 0) ≤ 1 := by split <;> simp
        omega
      rw [hdiv, ih _ i (by omega)]

/-- One register shift with insertion, at the value level: shifting a
width-`n + 1` register left (dropping the top bit) and inserting `b` at the
bottom yields the register of the shifted bit function. -/
lemma shift_regVal (n : Nat) (f F : Nat → Bool) (b : Bool)
    (h0 : F 0 = b) (hS : ∀ i, i < n → F (i + 1) = f i) :
    2 * regVal (n + 1) f % 2 ^ (n + 1) + (if b then 1 else 0)
      = regVal (n + 1) F := by
  have hmod : 2 * regVal (n + 1) f % 2 ^ (n + 1) = 2 * regVal n f := by
    rw [pow_succ', Nat.mul_mod_mul_left, regVal_mod n (n + 1) f (by omega)]
  rw [hmod]
  conv_rhs => rw [regVal]
  rw [h0, regVal_congr n (fun i => F (i + 1)) f hS]
  omega

/-- The empty stream reads as all zeros. -/
lemma revGet_nil (i : Nat) : revGet [] i = false := by
  simp [revGet]

/-- Reading position 0 after appending a bit yields that bit. -/
lemma revGet_append_zero (L : List Bool) (b : Bool) : revGet (L ++ [b]) 0 = b := by
  simp [revGet]

/-- Reading deeper positions after appending a bit reads the old stream. -/
lemma revGet_append_succ (L : List Bool) (b : Bool) (i : Nat) :
    revGet (L ++ [b]) (i + 1) = revGet L i := by
  simp [revGet]

/-- Characterization of the frame assembler registers after an arbitrary
bitstream: the payload register holds the last 64 pushed bits and the sync
register the 16 bits pushed before those (zero-padded at stream start). -/
lemma stFrame_spec (L : List Bool) :
    (stFrame L).data = regVal 64 (revGet L) ∧
    (stFrame L).sync_word = regVal 16 fun j => revGet L (64 + j) := by
  induction L using List.reverseRecOn with
  | nil =>
    constructor
    · rw [regVal_congr 64 (revGet []) (fun _ => false) fun i _ => revGet_nil i,
        regVal_false]
      rfl
    · rw [regVal_congr 16 (fun j => revGet [] (64 + j)) (fun _ => false)
        fun i _ => revGet_nil (64 + i), regVal_false]
      rfl
  | append_singleton L b ih =>
    obtain ⟨hd, hs⟩ := ih
    have hfold : stFrame (L ++ [b]) = V1.shift_bit (stFrame L) b := by
      unfold stFrame
      rw [List.foldl_append]
      rfl
    rw [hfold]
    constructor
    · show 2 * (stFrame L).data % 2 ^ 64 + (if b then 1 else 0)
        = regVal 64 (revGet (L ++ [b]))
      rw [hd]
      exact shift_regVal 63 (revGet L) (revGet (L ++ [b])) b
        (revGet_append_zero L b) fun i _ => revGet_append_succ L b i
    · show 2 * (stFrame L).sync_word % 2 ^ 16
          + (if (stFrame L).data.testBit 63 then 1 else 0)
        = regVal 16 fun j => revGet (L ++ [b]) (64 + j)
      rw [hd, hs, regVal_testBit 64 (revGet L) 63 (by omega)]
      refine shift_regVal 15 (fun j => revGet L (64 + j))
        (fun j => revGet (L ++ [b]) (64 + j)) (revGet L 63) ?_ ?_
      · exact revGet_append_succ L b 63
      · intro i _
        show revGet (L ++ [b]) (64 + i + 1) = revGet L (64 + i)
        rw [show 64 + i + 1 = (64 + i) + 1 from rfl]
        exact revGet_append_succ L b (64 + i)

/-- Splitting off the last full `<payload><sync>` repetition of a stream
prefix. -/
lemma prefixStream_eq (ps : List (List Bool)) (k : Nat) (hk0 : 0 < k)
    (hk : k < ps.length) :
    prefixStream ps k
      = (((ps.take (k - 1)).map fun p => p ++ syncBits).flatten
          ++ (ps.getD (k - 1) [] ++ syncBits)) ++ ps.getD k [] := by
  unfold prefixStream
  have hidx : k - 1 < ps.length := by omega
  have htake : ps.take k = ps.take (k - 1) ++ [ps.getD (k - 1) []] := by
    conv_lhs => rw [show k = (k - 1) + 1 from by omega]
    rw [List.take_succ, List.getElem?_eq_getElem hidx,
      List.getD_eq_getElem ps [] hidx]
    rfl
  rw [htake, List.map_append, List.flatten_append]
  simp

end FrameAssemblerLemmas

section SourceTestVectors

/-- Faithfulness anchor: the embedding reproduces the repository's own
`test_setters` vector (`new_with_time(5, 38, 14, 29)`). -/
lemma new_with_time_matches_source_test :
    V1.new_with_time 5 38 14 29
      = 0b0000000000000101000000110000100000000001000001000000001000001001 := by
  decide

/-- Faithfulness anchor: the embedding reproduces the repository's own
`test_get_bits` decode vector (`05:38:14:29`). -/
lemma getters_match_source_test :
    V1.get_frames
        0b0000000000000101000000110000100000000001000001000000111000001001 = 29 ∧
    V1.get_seconds
        0b0000000000000101000000110000100000000001000001000000111000001001 = 14 ∧
    V1.get_minutes
        0b0000000000000101000000110000100000000001000001000000111000001001 = 38 ∧
    V1.get_hours
        0b0000000000000101000000110000100000000001000001000000111000001001 = 5 := by
  decide

/-- Faithfulness anchor: the embedding reproduces the first step of the
repository's own `test_shift_bit` vector. -/
lemma shift_bit_matches_source_test :
    V1.shift_bit
      { sync_word := 0b1000000000100010
        data := 0b1000000000000101000000110000100000000001000001000000001000001001 }
      true
    = { sync_word := 0b0000000001000101
        data := 0b0000000000001010000001100001000000000010000010000000010000010011 } := by
  decide

end SourceTestVectors

/-- C1: the claim states that on `CanChangeInEnd` with an observed level
change, `push_sample` returns `Some(bit)` with the mid-bit flag AND the
within-bit sample counter reset.  The code emits the bit and clears the
flag, but `reset_to_start_of_bit` never resets the counter (its body reads
`self.sample_count_in_bit;`, an effect-free expression statement): at the
concrete locked state `c1State` (20 samples into the bit, full-bit window
`[15, 25]`), pushing a high sample yields `Some(false)` while the counter
stays at 21 instead of 0. -/
theorem c1_reset_bug_eval :
    (V1.BitDecoder.push_sample c1State 50).1 = some false ∧
    (V1.BitDecoder.push_sample c1State 50).2.sample_count_in_bit = 21 ∧
    (V1.BitDecoder.push_sample c1State 50).2.has_change_in_middle_bit = false := by
  exact ⟨by decide, by decide, by decide⟩

/-- C9: when the calibrator cannot yet classify a sample
(`SampleBounds::is_high` returns `None`), `BitDecoder::push_sample` returns
`None` and only the calibrator state advances; every synchronizer field
(`heartbeat_in_sync`, `sample_count_in_bit`, `is_high`,
`has_change_in_middle_bit`, `zero_detector`) is untouched and no
invalidation occurs. -/
theorem c9_push_sample_no_classification (d : V1.BitDecoder) (sample : Int)
    (h : (d.sample_bounds.is_high sample).1 = none) :
    V1.BitDecoder.push_sample d sample
        = (none, { d with sample_bounds := (d.sample_bounds.is_high sample).2 }) ∧
    (V1.BitDecoder.push_sample d sample).2.heartbeat_in_sync = d.heartbeat_in_sync ∧
    (V1.BitDecoder.push_sample d sample).2.sample_count_in_bit = d.sample_count_in_bit ∧
    (V1.BitDecoder.push_sample d sample).2.is_high = d.is_high ∧
    (V1.BitDecoder.push_sample d sample).2.has_change_in_middle_bit
        = d.has_change_in_middle_bit ∧
    (V1.BitDecoder.push_sample d sample).2.zero_detector = d.zero_detector := by
  have key : V1.BitDecoder.push_sample d sample
      = (none, { d with sample_bounds := (d.sample_bounds.is_high sample).2 }) := by
    simp only [V1.BitDecoder.push_sample, h]
  rw [key]
  exact ⟨rfl, rfl, rfl, rfl, rfl, rfl⟩

/-- Witness for C9 at a concrete fresh decoder state and sample `7`: the
calibrator is not yet valid, so `is_high` yields no classification. -/
theorem c9_push_sample_no_classification_witness :
    (c9State.sample_bounds.is_high 7).1 = none ∧
    V1.BitDecoder.push_sample c9State 7
        = (none, { c9State with sample_bounds := (c9State.sample_bounds.is_high 7).2 }) :=
  ⟨by decide, (c9_push_sample_no_classification c9State 7 (by decide)).1⟩

/-- C4 counterexample: taking frames `45 ∈ [0, 99]` (hours, minutes and
seconds `0`), encoding with the field setters and decoding does not return
`45`: the frame-tens field is two bits wide, so the tens digit `4` is
truncated and the decoder returns `5`. -/
theorem c4_counterexample :
    V1.get_frames (V1.new_with_time 0 0 0 45) = 5 ∧
    V1.get_frames (V1.new_with_time 0 0 0 45) ≠ 45 := by
  exact ⟨by decide, by decide⟩

/-- C4 (amended): for hours and frames up to `39` and minutes and seconds
up to `79` (the ranges representable in the 2-bit and 3-bit tens fields)
and arbitrary 4-bit user nibbles, encoding with the field setters and
decoding with the field getters returns the original values and nibbles
exactly. -/
theorem c4_roundtrip_amended (h m s f n1 n2 n3 n4 n5 n6 n7 n8 : Nat)
    (hh : h ≤ 39) (hm : m ≤ 79) (hs : s ≤ 79) (hf : f ≤ 39)
    (e1 : n1 < 16) (e2 : n2 < 16) (e3 : n3 < 16) (e4 : n4 < 16)
    (e5 : n5 < 16) (e6 : n6 < 16) (e7 : n7 < 16) (e8 : n8 < 16) :
    V1.get_hours (V1.encode_with_user_bits h m s f n1 n2 n3 n4 n5 n6 n7 n8) = h ∧
    V1.get_minutes (V1.encode_with_user_bits h m s f n1 n2 n3 n4 n5 n6 n7 n8) = m ∧
    V1.get_seconds (V1.encode_with_user_bits h m s f n1 n2 n3 n4 n5 n6 n7 n8) = s ∧
    V1.get_frames (V1.encode_with_user_bits h m s f n1 n2 n3 n4 n5 n6 n7 n8) = f ∧
    V1.get_frame_units_user_bits
        (V1.encode_with_user_bits h m s f n1 n2 n3 n4 n5 n6 n7 n8) = n1 ∧
    V1.get_frame_tens_user_bits
        (V1.encode_with_user_bits h m s f n1 n2 n3 n4 n5 n6 n7 n8) = n2 ∧
    V1.get_second_units_user_bits
        (V1.encode_with_user_bits h m s f n1 n2 n3 n4 n5 n6 n7 n8) = n3 ∧
    V1.get_second_tens_user_bits
        (V1.encode_with_user_bits h m s f n1 n2 n3 n4 n5 n6 n7 n8) = n4 ∧
    V1.get_minute_units_user_bits
        (V1.encode_with_user_bits h m s f n1 n2 n3 n4 n5 n6 n7 n8) = n5 ∧
    V1.get_minute_tens_user_bits
        (V1.encode_with_user_bits h m s f n1 n2 n3 n4 n5 n6 n7 n8) = n6 ∧
    V1.get_hour_units_user_bits
        (V1.encode_with_user_bits h m s f n1 n2 n3 n4 n5 n6 n7 n8) = n7 ∧
    V1.get_hour_tens_user_bits
        (V1.encode_with_user_bits h m s f n1 n2 n3 n4 n5 n6 n7 n8) = n8 := by
  have hu_f : f % 10 < 16 := by omega
  have ht_f : (f - f % 10) / 10 < 4 := by omega
  have hu_s : s % 10 < 16 := by omega
  have ht_s : (s - s % 10) / 10 < 8 := by omega
  have hu_m : m % 10 < 16 := by omega
  have ht_m : (m - m % 10) / 10 < 8 := by omega
  have hu_h : h % 10 < 16 := by omega
  have ht_h : (h - h % 10) / 10 < 4 := by omega
  refine ⟨?_, ?_, ?_, ?_, ?_, ?_, ?_, ?_, ?_, ?_, ?_, ?_⟩ <;>
    simp only [V1.get_frames, V1.get_seconds, V1.get_minutes, V1.get_hours,
      V1.get_frame_units_user_bits, V1.get_frame_tens_user_bits,
      V1.get_second_units_user_bits, V1.get_second_tens_user_bits,
      V1.get_minute_units_user_bits, V1.get_minute_tens_user_bits,
      V1.get_hour_units_user_bits, V1.get_hour_tens_user_bits,
      V1.encode_with_user_bits,
      V1.new_with_time, V1.set_frames, V1.set_seconds, V1.set_minutes,
      V1.set_hours, V1.set_frame_units_user_bits, V1.set_frame_tens_user_bits,
      V1.set_second_units_user_bits, V1.set_second_tens_user_bits,
      V1.set_minute_units_user_bits, V1.set_minute_tens_user_bits,
      V1.set_hour_units_user_bits, V1.set_hour_tens_user_bits,
      V1.split_to_tens_and_units, V1.set_range, V1.get_range,
      V1.BIT_RANGE_FRAME_UNITS, V1.BIT_RANGE_FRAME_TENS,
      V1.BIT_RANGE_SECOND_UNITS, V1.BIT_RANGE_SECOND_TENS,
      V1.BIT_RANGE_MINUTE_UNITS, V1.BIT_RANGE_MINUTE_TENS,
      V1.BIT_RANGE_HOUR_UNITS, V1.BIT_RANGE_HOUR_TENS,
      V1.BIT_RANGE_FRAME_UNITS_USER_BITS, V1.BIT_RANGE_FRAME_TENS_USER_BITS,
      V1.BIT_RANGE_SECOND_UNITS_USER_BITS, V1.BIT_RANGE_SECOND_TENS_USER_BITS,
      V1.BIT_RANGE_MINUTE_UNITS_USER_BITS, V1.BIT_RANGE_MINUTE_TENS_USER_BITS,
      V1.BIT_RANGE_HOUR_UNITS_USER_BITS, V1.BIT_RANGE_HOUR_TENS_USER_BITS] <;>
    simp [get_bits_set_bits_same, get_bits_set_bits_below, get_bits_set_bits_above,
      hu_f, ht_f, hu_s, ht_s, hu_m, ht_m, hu_h, ht_h, e1, e2, e3, e4, e5, e6, e7, e8]
  all_goals omega

/-- Witness for C4 (amended) at `05:38:14:29` with nibbles
`1, 3, 5, 7, 9, 11, 13, 15`. -/
theorem c4_roundtrip_amended_witness :
    (5 ≤ 39 ∧ 38 ≤ 79 ∧ 14 ≤ 79 ∧ 29 ≤ 39) ∧
    V1.get_hours (V1.encode_with_user_bits 5 38 14 29 1 3 5 7 9 11 13 15) = 5 ∧
    V1.get_frames (V1.encode_with_user_bits 5 38 14 29 1 3 5 7 9 11 13 15) = 29 ∧
    V1.get_hour_tens_user_bits
        (V1.encode_with_user_bits 5 38 14 29 1 3 5 7 9 11 13 15) = 15 := by
  have r := c4_roundtrip_amended 5 38 14 29 1 3 5 7 9 11 13 15
    (by decide) (by decide) (by decide) (by decide) (by decide) (by decide)
    (by decide) (by decide) (by decide) (by decide) (by decide) (by decide)
  exact ⟨by decide, r.1, r.2.2.2.1, r.2.2.2.2.2.2.2.2.2.2.2⟩

/-- C10: decoding performs no range validation: for every payload the digit
getters are capped only by the field widths (`≤ 45` for frames and hours,
`≤ 85` for seconds and minutes), and there is a payload whose sync word
matches for which the emitted frame carries `frames = 45 > 29`. -/
theorem c10_decode_bounds :
    (∀ data : Nat,
      V1.get_frames data ≤ 45 ∧ V1.get_seconds data ≤ 85 ∧
      V1.get_minutes data ≤ 85 ∧ V1.get_hours data ≤ 45) ∧
    (∃ fr : V1.LtcFrame, fr.sync_word = V1.LTC_SYNC_WORD ∧
      V1.get_data fr = some fr.data ∧
      29 < (V1.into_ltc_frame fr.data).2.2.2) := by
  constructor
  · intro data
    simp only [V1.get_frames, V1.get_seconds, V1.get_minutes, V1.get_hours,
      V1.get_range, V1.get_bits,
      V1.BIT_RANGE_FRAME_UNITS, V1.BIT_RANGE_FRAME_TENS,
      V1.BIT_RANGE_SECOND_UNITS, V1.BIT_RANGE_SECOND_TENS,
      V1.BIT_RANGE_MINUTE_UNITS, V1.BIT_RANGE_MINUTE_TENS,
      V1.BIT_RANGE_HOUR_UNITS, V1.BIT_RANGE_HOUR_TENS]
    norm_num
    omega
  · exact ⟨⟨V1.LTC_SYNC_WORD, 783⟩, rfl, by decide, by decide⟩

/-- C7: `get_data` returns `Some` exactly when the sync register equals the
sync constant, and the payload it returns is the value of the payload
register at the moment of the call (a copy, unaffected by later
`shift_bit` mutations of the live registers, which is automatic in this
pure embedding). -/
theorem c7_get_data_iff (f : V1.LtcFrame) (d : Nat) :
    V1.get_data f = some d ↔ (f.sync_word = V1.LTC_SYNC_WORD ∧ d = f.data) := by
  unfold V1.get_data V1.data_valid
  by_cases hs : f.sync_word = V1.LTC_SYNC_WORD
  · simp only [hs, beq_self_eq_true, if_true, Option.some_inj, true_and]
    exact eq_comm
  · have hb : (f.sync_word == V1.LTC_SYNC_WORD) = false := by
      simpa using hs
    simp [hb, hs]

/-- C8: for a `TimecodeFrame` with in-range fields (`frames` below the
classification's modulus — any `u8` value under `Unknown` — and `seconds`
and `minutes` at most 59), `add_frame` behaves exactly as the claim
describes: increment `frames`; on reaching the modulus reset it and carry
into `seconds`, then `minutes` (modulus 60 each), then `hours`. -/
theorem c8_add_frame (t : V2.TimecodeFrame)
    (hf : t.frames < V2.frames_bound t.frames_per_second)
    (hs : t.seconds ≤ 59) (hm : t.minutes ≤ 59) :
    V2.add_frame t = V2.advance_one_frame_spec t := by
  cases t with
  | mk thh tmm tss tff tfps =>
    cases tfps <;>
      simp only [V2.add_frame, V2.advance_one_frame_spec, V2.rollover_modulus,
        V2.frames_bound] at hf ⊢ <;>
      split_ifs <;>
      simp_all [V2.TimecodeFrame.mk.injEq] <;>
      omega

/-- C2 counterexample: for `N = 1` and the all-zero payload, feeding the
bitstream `<64 payload bits><16-bit sync constant>` to the frame assembler
and querying `get_data` after each bit never returns `Some`: the sync word
is pushed after the payload, so nothing precedes the first payload and the
claimed single `Some(payload)` event does not occur (zero events instead of
`N = 1`). -/
theorem c2_counterexample :
    (V1.run V1.new_empty (List.replicate 64 false ++ syncBits)).length = 80 ∧
    (V1.run V1.new_empty (List.replicate 64 false ++ syncBits)).countP
        (fun o => o.isSome) = 0 := by
  exact ⟨by decide, by decide⟩

/-- C2 (amended): in the bitstream made of repetitions of
`<64 payload bits><16-bit sync constant>`, every payload from the second
repetition on is recognized: for each `k ≥ 1` (0-indexed), immediately
after the last bit of the `k`-th payload — which is preceded in the stream
by the `k-1`-st repetition's sync word — `get_data` returns `Some` of
exactly that payload.  (The first payload is never emitted, since no sync
word precedes it, and payloads that happen to contain the sync pattern can
trigger additional events, so the original "exactly N events, the k-th
equal to the k-th payload" fails.) -/
theorem c2_frame_recognition_amended (ps : List (List Bool))
    (hlen : ∀ p ∈ ps, p.length = 64) (k : Nat) (hk0 : 0 < k)
    (hk : k < ps.length) :
    V1.get_data (stFrame (prefixStream ps k))
      = some (payload_value (ps.getD k [])) := by
  obtain ⟨hd, hs⟩ := stFrame_spec (prefixStream ps k)
  have hQlen : (ps.getD k []).length = 64 := by
    refine hlen _ ?_
    rw [List.getD_eq_getElem ps [] hk]
    exact List.getElem_mem hk
  have hdec := prefixStream_eq ps k hk0 hk
  have hrevi : ∀ i, i < 64 →
      revGet (prefixStream ps k) i = revGet (ps.getD k []) i := by
    intro i hi
    rw [hdec]
    unfold revGet
    rw [List.reverse_append]
    rw [List.getD_append _ _ _ _ (by rw [List.length_reverse, hQlen]; omega)]
  have hrevj : ∀ j, j < 16 →
      revGet (prefixStream ps k) (64 + j) = syncBits.reverse.getD j false := by
    intro j hj
    rw [hdec]
    unfold revGet
    rw [List.reverse_append]
    rw [List.getD_append_right _ _ _ _
      (by rw [List.length_reverse, hQlen]; omega)]
    rw [List.length_reverse, hQlen, show 64 + j - 64 = j from by omega]
    rw [List.reverse_append]
    rw [List.getD_append _ _ _ _
      (by
        rw [List.length_reverse, List.length_append]
        have hsl : syncBits.length = 16 := by decide
        omega)]
    rw [List.reverse_append]
    rw [List.getD_append _ _ _ _
      (by
        rw [List.length_reverse]
        have hsl : syncBits.length = 16 := by decide
        omega)]
  have hdval : (stFrame (prefixStream ps k)).data
      = payload_value (ps.getD k []) := by
    rw [hd]
    exact regVal_congr 64 _ _ fun i hi => hrevi i hi
  have hsval : (stFrame (prefixStream ps k)).sync_word = V1.LTC_SYNC_WORD := by
    rw [hs]
    rw [regVal_congr 16 _ (fun j => syncBits.reverse.getD j false)
      fun j hj => hrevj j hj]
    decide
  unfold V1.get_data V1.data_valid
  rw [hsval, hdval]
  simp

/-- Witness for C2 (amended): two payloads (all-zero, then all-one), second
repetition (`k = 1`); the assembler emits exactly the second payload right
after its last bit. -/
theorem c2_frame_recognition_amended_witness :
    ((∀ p ∈ [List.replicate 64 false, List.replicate 64 true],
        p.length = 64) ∧ 0 < 1 ∧ 1 < 2) ∧
    V1.get_data (stFrame
        (prefixStream [List.replicate 64 false, List.replicate 64 true] 1))
      = some (payload_value
          ([List.replicate 64 false, List.replicate 64 true].getD 1 [])) :=
  ⟨⟨by decide, by decide, by decide⟩,
   c2_frame_recognition_amended
     [List.replicate 64 false, List.replicate 64 true]
     (by decide) 1 (by decide) (by decide)⟩

/-- C3 counterexample: pushing the 255 samples `-1, 234, 0, …, 0` into a
fresh calibrator (these are the values of the repository's own
`test_recalculate`) leaves the threshold at `234 / 2 + (-1) / 2 = 117`,
while `(min + max) / 2 = 233 / 2 = 116`: the recalculated threshold is NOT
`(min + max) / 2` in exact integer arithmetic. -/
theorem c3_counterexample :
    (c3Samples.foldl V1.SampleBounds.push_sample V1.SampleBounds.new).min_value
        = -1 ∧
    (c3Samples.foldl V1.SampleBounds.push_sample V1.SampleBounds.new).max_value
        = 234 ∧
    (c3Samples.foldl V1.SampleBounds.push_sample V1.SampleBounds.new).threshold
        = 117 ∧
    ((c3Samples.foldl V1.SampleBounds.push_sample V1.SampleBounds.new).min_value
        + (c3Samples.foldl V1.SampleBounds.push_sample V1.SampleBounds.new).max_value)
        / 2 = 116 ∧
    ¬((c3Samples.foldl V1.SampleBounds.push_sample V1.SampleBounds.new).threshold
        = ((c3Samples.foldl V1.SampleBounds.push_sample V1.SampleBounds.new).min_value
            + (c3Samples.foldl V1.SampleBounds.push_sample V1.SampleBounds.new).max_value)
          / 2) := by
  have hlen0 : V1.SampleBounds.new.sample_history.length = 255 := by
    show (List.replicate 255 (0 : Int)).length = 255
    rw [List.length_replicate]
  have hlenc : c3Samples.length = 255 := by
    unfold c3Samples
    rw [List.length_cons, List.length_cons, List.length_replicate]
  have hmem1 : (-1 : Int) ∈ c3Samples := by
    unfold c3Samples
    exact List.mem_cons_self _ _
  have hmem2 : (234 : Int) ∈ c3Samples := by
    unfold c3Samples
    exact List.mem_cons_of_mem _ (List.mem_cons_self _ _)
  obtain ⟨hperm, hmnmem, hmnle, hmxmem, hmxge, hth, hval⟩ :=
    calibration_fold_spec V1.SampleBounds.new c3Samples rfl hlen0 hlenc
  have hmn : (c3Samples.foldl V1.SampleBounds.push_sample V1.SampleBounds.new).min_value
      = -1 := by
    have h1 : (c3Samples.foldl V1.SampleBounds.push_sample V1.SampleBounds.new).min_value
        ≤ -1 := hmnle (-1) hmem1
    revert h1 hmnmem
    generalize (c3Samples.foldl V1.SampleBounds.push_sample V1.SampleBounds.new).min_value = mv
    intro hmnmem h1
    simp only [c3Samples, List.mem_cons, List.mem_replicate] at hmnmem
    rcases hmnmem with he | he | ⟨-, he⟩ <;> omega
  have hmx : (c3Samples.foldl V1.SampleBounds.push_sample V1.SampleBounds.new).max_value
      = 234 := by
    have h1 : (234 : Int)
        ≤ (c3Samples.foldl V1.SampleBounds.push_sample V1.SampleBounds.new).max_value :=
      hmxge 234 hmem2
    revert h1 hmxmem
    generalize (c3Samples.foldl V1.SampleBounds.push_sample V1.SampleBounds.new).max_value = mv
    intro hmxmem h1
    simp only [c3Samples, List.mem_cons, List.mem_replicate] at hmxmem
    rcases hmxmem with he | he | ⟨-, he⟩ <;> omega
  refine ⟨hmn, hmx, ?_, ?_, ?_⟩
  · rw [hth, hmn, hmx]
    decide
  · rw [hmn, hmx]
    decide
  · rw [hth, hmn, hmx]
    decide

/-- C3 (amended): pushing any 255 samples into a calibrator whose counter
starts at 0 (fresh, just recalculated, or just invalidated) triggers the
recalculation on the 255th push; it leaves the history window a permutation
of the pushed samples, `min`/`max` the true minimum and maximum of that
window, and the threshold `max / 2 + min / 2` computed with truncating
integer halves — which differs from `(min + max) / 2` by at most one and
coincides with it when both bounds are even. -/
theorem c3_calibration_amended (s0 : V1.SampleBounds) (ss : List Int)
    (hrc : s0.received_count = 0) (hlen : s0.sample_history.length = 255)
    (hss : ss.length = 255) :
    ((ss.foldl V1.SampleBounds.push_sample s0).sample_history).Perm ss ∧
    (ss.foldl V1.SampleBounds.push_sample s0).min_value ∈ ss ∧
    (∀ x ∈ ss, (ss.foldl V1.SampleBounds.push_sample s0).min_value ≤ x) ∧
    (ss.foldl V1.SampleBounds.push_sample s0).max_value ∈ ss ∧
    (∀ x ∈ ss, x ≤ (ss.foldl V1.SampleBounds.push_sample s0).max_value) ∧
    (ss.foldl V1.SampleBounds.push_sample s0).threshold
      = Int.tdiv (ss.foldl V1.SampleBounds.push_sample s0).max_value 2
        + Int.tdiv (ss.foldl V1.SampleBounds.push_sample s0).min_value 2 ∧
    (ss.foldl V1.SampleBounds.push_sample s0).valid = true :=
  calibration_fold_spec s0 ss hrc hlen hss

/-- Witness for C3 (amended) at the fresh calibrator and the concrete
255-sample run `c3Samples`. -/
theorem c3_calibration_amended_witness :
    (V1.SampleBounds.new.received_count = 0 ∧
      V1.SampleBounds.new.sample_history.length = 255 ∧
      c3Samples.length = 255) ∧
    (c3Samples.foldl V1.SampleBounds.push_sample V1.SampleBounds.new).threshold
      = Int.tdiv
          (c3Samples.foldl V1.SampleBounds.push_sample V1.SampleBounds.new).max_value 2
        + Int.tdiv
          (c3Samples.foldl V1.SampleBounds.push_sample V1.SampleBounds.new).min_value 2 :=
  ⟨⟨rfl,
    by
      show (List.replicate 255 (0 : Int)).length = 255
      rw [List.length_replicate],
    by
      unfold c3Samples
      rw [List.length_cons, List.length_cons, List.length_replicate]⟩,
   (c3_calibration_amended V1.SampleBounds.new c3Samples rfl
      (by
        show (List.replicate 255 (0 : Int)).length = 255
        rw [List.length_replicate])
      (by
        unfold c3Samples
        rw [List.length_cons, List.length_cons, List.length_replicate])).2.2.2.2.2.1⟩

/-- C6 counterexample: invalidating a frame-assembler state with a nonzero
`frame_data_sample_count` (here 42) zeroes both registers but leaves the
sample counter at 42, contradicting the claim that invalidation zeroes the
frame-duration sample counter. -/
theorem c6_counterexample :
    (V2.invalidate ⟨7, 5, 42⟩).frame_data_sample_count = 42 ∧
    ¬(V2.invalidate ⟨7, 5, 42⟩).frame_data_sample_count = 0 := by
  exact ⟨rfl, by decide⟩

/-- C6 (amended): invalidation zeroes the 64-bit payload register and the
16-bit sync register but leaves `frame_data_sample_count` unchanged (the
counter is reset only by `sample_received` when the start-of-frame
signature is seen). -/
theorem c6_invalidate_amended (f : V2.LtcFrame) :
    V2.invalidate f
      = { sync_word := 0, data := 0,
          frame_data_sample_count := f.frame_data_sample_count } :=
  rfl

/-- C5: a sync-word-free frame duration within 1% of the nominal 24, 25 or
30 fps payload duration classifies as that rate, and a duration at least 3%
away from all three nominal payload durations classifies as `Unknown` (the
`f32` constants of the source are embedded as the exact rationals of their
decimal literals). -/
theorem c5_frame_rate_classification (d : ℚ) :
    (|d - V2.DURATION_TWENTY_FOUR_WITHOUT_SYNC_WORD_IN_S|
        ≤ V2.DURATION_TWENTY_FOUR_WITHOUT_SYNC_WORD_IN_S / 100 →
      V2.from_frame_duration_without_syncword_in_s d
        = V2.FramesPerSecond.TwentyFour) ∧
    (|d - V2.DURATION_TWENTY_FIVE_WITHOUT_SYNC_WORD_IN_S|
        ≤ V2.DURATION_TWENTY_FIVE_WITHOUT_SYNC_WORD_IN_S / 100 →
      V2.from_frame_duration_without_syncword_in_s d
        = V2.FramesPerSecond.TwentyFive) ∧
    (|d - V2.DURATION_THIRTY_WITHOUT_SYNC_WORD_IN_S|
        ≤ V2.DURATION_THIRTY_WITHOUT_SYNC_WORD_IN_S / 100 →
      V2.from_frame_duration_without_syncword_in_s d
        = V2.FramesPerSecond.Thirty) ∧
    ((V2.DURATION_TWENTY_FOUR_WITHOUT_SYNC_WORD_IN_S * 3 / 100
        ≤ |d - V2.DURATION_TWENTY_FOUR_WITHOUT_SYNC_WORD_IN_S| ∧
      V2.DURATION_TWENTY_FIVE_WITHOUT_SYNC_WORD_IN_S * 3 / 100
        ≤ |d - V2.DURATION_TWENTY_FIVE_WITHOUT_SYNC_WORD_IN_S| ∧
      V2.DURATION_THIRTY_WITHOUT_SYNC_WORD_IN_S * 3 / 100
        ≤ |d - V2.DURATION_THIRTY_WITHOUT_SYNC_WORD_IN_S|) →
      V2.from_frame_duration_without_syncword_in_s d
        = V2.FramesPerSecond.Unknown) := by
  simp only [V2.from_frame_duration_without_syncword_in_s,
    V2.is_in_duration_bounds,
    V2.DURATION_BOUND_TWENTY_FOUR_WITHOUT_SYNC_WORD_IN_S,
    V2.DURATION_BOUND_THWENTY_FIVE_WITHOUT_SYNC_WORD_IN_S,
    V2.DURATION_BOUND_THIRTY_WITHOUT_SYNC_WORD_IN_S,
    V2.DURATION_TWENTY_FOUR_WITHOUT_SYNC_WORD_IN_S,
    V2.DURATION_TWENTY_FIVE_WITHOUT_SYNC_WORD_IN_S,
    V2.DURATION_THIRTY_WITHOUT_SYNC_WORD_IN_S,
    V2.DURATION_TWENTY_FOUR_FULL_FRAME_IN_S,
    V2.DURATION_TWENTY_FIVE_FULL_FRAME_IN_S,
    V2.DURATION_THIRTY_FULL_FRAME_IN_S,
    Bool.and_eq_true, decide_eq_true_eq]
  refine ⟨?_, ?_, ?_, ?_⟩
  · intro h
    rw [abs_le] at h
    rw [if_pos]
    constructor <;> linarith [h.1, h.2]
  · intro h
    rw [abs_le] at h
    rw [if_neg, if_pos]
    · constructor <;> linarith [h.1, h.2]
    · rintro ⟨a, b⟩
      linarith [h.1, h.2]
  · intro h
    rw [abs_le] at h
    rw [if_neg, if_neg, if_pos]
    · constructor <;> linarith [h.1, h.2]
    · rintro ⟨a, b⟩
      linarith [h.1, h.2]
    · rintro ⟨a, b⟩
      linarith [h.1, h.2]
  · rintro ⟨h24, h25, h30⟩
    rw [if_neg, if_neg, if_neg]
    · rcases le_abs.mp h30 with h30a | h30b <;>
        · rintro ⟨a, b⟩
          linarith
    · rcases le_abs.mp h25 with h25a | h25b <;>
        · rintro ⟨a, b⟩
          linarith
    · rcases le_abs.mp h24 with h24a | h24b <;>
        · rintro ⟨a, b⟩
          linarith

/-- Witness for C5: the exact nominal 25 fps payload duration `0.032 s`
classifies as 25 fps, and one second is at least 3% away from every
nominal payload duration and classifies as `Unknown`. -/
theorem c5_frame_rate_classification_witness :
    (|(4 / 125 : ℚ) - V2.DURATION_TWENTY_FIVE_WITHOUT_SYNC_WORD_IN_S|
        ≤ V2.DURATION_TWENTY_FIVE_WITHOUT_SYNC_WORD_IN_S / 100 ∧
      V2.from_frame_duration_without_syncword_in_s (4 / 125)
        = V2.FramesPerSecond.TwentyFive) ∧
    (V2.DURATION_THIRTY_WITHOUT_SYNC_WORD_IN_S * 3 / 100
        ≤ |(1 : ℚ) - V2.DURATION_THIRTY_WITHOUT_SYNC_WORD_IN_S| ∧
      V2.from_frame_duration_without_syncword_in_s 1
        = V2.FramesPerSecond.Unknown) := by
  have h25 : |(4 / 125 : ℚ) - V2.DURATION_TWENTY_FIVE_WITHOUT_SYNC_WORD_IN_S|
      ≤ V2.DURATION_TWENTY_FIVE_WITHOUT_SYNC_WORD_IN_S / 100 := by
    simp only [V2.DURATION_TWENTY_FIVE_WITHOUT_SYNC_WORD_IN_S,
      V2.DURATION_TWENTY_FIVE_FULL_FRAME_IN_S]
    rw [abs_le]
    norm_num
  have hu1 : V2.DURATION_TWENTY_FOUR_WITHOUT_SYNC_WORD_IN_S * 3 / 100
      ≤ |(1 : ℚ) - V2.DURATION_TWENTY_FOUR_WITHOUT_SYNC_WORD_IN_S| := by
    simp only [V2.DURATION_TWENTY_FOUR_WITHOUT_SYNC_WORD_IN_S,
      V2.DURATION_TWENTY_FOUR_FULL_FRAME_IN_S]
    rw [abs_of_nonneg (by norm_num)]
    norm_num
  have hu2 : V2.DURATION_TWENTY_FIVE_WITHOUT_SYNC_WORD_IN_S * 3 / 100
      ≤ |(1 : ℚ) - V2.DURATION_TWENTY_FIVE_WITHOUT_SYNC_WORD_IN_S| := by
    simp only [V2.DURATION_TWENTY_FIVE_WITHOUT_SYNC_WORD_IN_S,
      V2.DURATION_TWENTY_FIVE_FULL_FRAME_IN_S]
    rw [abs_of_nonneg (by norm_num)]
    norm_num
  have hu3 : V2.DURATION_THIRTY_WITHOUT_SYNC_WORD_IN_S * 3 / 100
      ≤ |(1 : ℚ) - V2.DURATION_THIRTY_WITHOUT_SYNC_WORD_IN_S| := by
    simp only [V2.DURATION_THIRTY_WITHOUT_SYNC_WORD_IN_S,
      V2.DURATION_THIRTY_FULL_FRAME_IN_S]
    rw [abs_of_nonneg (by norm_num)]
    norm_num
  exact ⟨⟨h25, (c5_frame_rate_classification (4 / 125)).2.1 h25⟩,
    ⟨hu3, (c5_frame_rate_classification 1).2.2.2 ⟨hu1, hu2, hu3⟩⟩⟩

/-- Witness for C8 at `00:59:59:24` and 25 fps: the advance rolls all three
carries and increments the hours. -/
theorem c8_add_frame_witness :
    ((24 : Nat) < V2.frames_bound V2.FramesPerSecond.TwentyFive ∧
      (59 : Nat) ≤ 59 ∧ (59 : Nat) ≤ 59) ∧
    V2.add_frame ⟨0, 59, 59, 24, V2.FramesPerSecond.TwentyFive⟩
      = V2.advance_one_frame_spec ⟨0, 59, 59, 24, V2.FramesPerSecond.TwentyFive⟩ :=
  ⟨by decide,
   c8_add_frame ⟨0, 59, 59, 24, V2.FramesPerSecond.TwentyFive⟩
     (by decide) (by decide) (by decide)⟩
